import Mathlib

/-!
A shallow embedding, in Lean 4, of the order-creation pipeline of the
`e-commerce-order-processing` repository (Go), together with theorems about
it.

Embedded components and their Go sources:

* the order domain model and factory
  (`internal/orderservice/domain/order.go`, `errors.go`);
* the order service pipeline `CreateOrder`
  (`internal/orderservice/service/order_service.go`);
* the PostgreSQL repository `CreateOrder` / `GetOrderByID`
  (`internal/orderservice/repository/postgresql_repository.go`), over an
  explicit relational state (a list of order rows and a list of item rows)
  with the SQL transaction modelled as all-or-nothing publication of the
  transaction-local writes;
* the Kafka consumer loop `StartConsuming` (consumer file in the `kafka`
  package), as a step function over the sequence of fetch outcomes.

Modelling conventions:

* Go `float64` money amounts (`UnitPrice`, `TotalPrice`) are modelled as
  exact rationals `ℚ`; the spec asks for the exact sum "beyond the numeric
  type's native precision", and the summation structure of the code is
  preserved (a left fold in source order).
* `uuid.UUID` is an opaque identifier type with decidable equality; the
  outputs of `uuid.New()` and `time.Now()` are supplied as explicit
  parameters (oracles), since they are nondeterministic in the source.
* Go `error` values are an inductive type: the domain sentinel errors of
  `errors.go`, driver-level database errors, and `fmt.Errorf("...: %w", err)`
  wrapping; `errors.Is` unwraps the chain as in the Go standard library.
* Database driver failures (connection loss etc.) are injected through a
  fault oracle, one slot per `ExecContext`/`Commit` call of the transaction.
-/

/-- Go `uuid.UUID`: an opaque 128-bit identifier; only equality matters here. -/
structure UUID where
  val : Nat
deriving DecidableEq, Repr

/-- Go `uuid.Nil`, the zero UUID. -/
def uuidNil : UUID := ⟨0⟩

/-- Go `UUID.String()`: the canonical string form, modelled by an injective
stand-in (the decimal form of the value). -/
def uuidStr (u : UUID) : String := toString u.val

/-- Timestamps (`time.Time`), as an abstract instant. -/
abbrev Time := Int

/-- The sentinel errors of `domain/errors.go`. -/
inductive DomainErr where
  | invalidOrderItemQuantity
  | invalidOrderItemUnitPrice
  | noOrderItems
  | orderNotFound
  | invalidOrderStatusTransition
deriving DecidableEq, Repr, Fintype

/-- Driver-level database errors (the `lib/pq` error surfaced by a failing
`ExecContext`/`Commit`): a primary-key unique violation, or some other
infrastructure failure such as a lost connection. -/
inductive DbErr where
  | uniqueViolation
  | connectionFailure
deriving DecidableEq, Repr

/-- Go `error` values as this codebase produces them: a domain sentinel from
`errors.go`, a raw driver error, or an `fmt.Errorf("msg: %w", cause)` wrap. -/
inductive GoError where
  | sentinel (e : DomainErr)
  | driver (e : DbErr)
  | wrapped (msg : String) (cause : GoError)
deriving DecidableEq, Repr

/-- Go `errors.Is`: unwrap the `%w` chain looking for the target error value. -/
def errorsIs : GoError → GoError → Bool
  | e, target =>
    e == target ||
      match e with
      | .wrapped _ cause => errorsIs cause target
      | _ => false

/-- Go struct `domain.OrderItem`. -/
structure OrderItem where
  productId : UUID
  quantity : Int
  unitPrice : ℚ
deriving DecidableEq, Repr

/-- Go struct `domain.Order`; `Status` is a string in the source. -/
structure Order where
  id : UUID
  customerId : UUID
  items : List OrderItem
  status : String
  totalPrice : ℚ
  createdAt : Time
  updatedAt : Time
deriving DecidableEq, Repr

/-- The `domain.OrderStatusPending` constant. -/
def orderStatusPending : String := "pending"

/-- The validation loop of `domain.NewOrder`: walk the items in sequence
order accumulating the total price; reject an item with non-positive
quantity first, then an item with negative unit price (the source check is
`item.UnitPrice < 0`). -/
def validateAndSum : List OrderItem → ℚ → Except GoError ℚ
  | [], acc => .ok acc
  | item :: rest, acc =>
    if item.quantity ≤ 0 then
      .error (.sentinel .invalidOrderItemQuantity)
    else if item.unitPrice < 0 then
      .error (.sentinel .invalidOrderItemUnitPrice)
    else
      validateAndSum rest (acc + (item.quantity : ℚ) * item.unitPrice)

/-- The factory `domain.NewOrder`. The per-item loop runs first; the emptiness check
(`len(items) == 0`) comes after it, as in the source. `gid` is the output of
`uuid.New()` and `now` the output of `time.Now()`. -/
def NewOrder (gid : UUID) (now : Time) (customerId : UUID)
    (items : List OrderItem) : Except GoError Order :=
  match validateAndSum items 0 with
  | .error e => .error e
  | .ok totalPrice =>
    if items.length = 0 then
      .error (.sentinel .noOrderItems)
    else
      .ok { id := gid
            customerId := customerId
            items := items
            status := orderStatusPending
            totalPrice := totalPrice
            createdAt := now
            updatedAt := now }

/-- A row of the `orders` table. -/
structure OrderRow where
  id : UUID
  customerId : UUID
  status : String
  totalPrice : ℚ
  createdAt : Time
  updatedAt : Time
deriving DecidableEq, Repr

/-- A row of the `order_items` table. -/
structure ItemRow where
  id : UUID
  orderId : UUID
  productId : UUID
  quantity : Int
  unitPrice : ℚ
  createdAt : Time
  updatedAt : Time
deriving DecidableEq, Repr

/-- The committed database state: the two tables of the migration. -/
structure DB where
  orders : List OrderRow
  orderItems : List ItemRow
deriving DecidableEq, Repr

/-- Nondeterministic inputs of one repository `CreateOrder` call: the
`uuid.New()` result for each item row, the `time.Now()` instant for each item
row (the two calls per item are taken at the same instant), and an injected
driver fault per database call — slot 0 is the order-row insert, slot `i+1`
the insert of item `i`, and the slot after the last item is `tx.Commit()`. -/
structure TxEnv where
  itemIds : Nat → UUID
  itemTimes : Nat → Time
  faults : Nat → Option DbErr

/-- The order-row `INSERT` inside the transaction: an injected driver fault
or a primary-key violation fails the statement; otherwise the row is
appended to the transaction-local view of `orders`. -/
def insertOrderRow (rows : List OrderRow) (o : Order) (fault : Option DbErr) :
    Except GoError (List OrderRow) :=
  match fault with
  | some e => .error (.wrapped "failed to insert order" (.driver e))
  | none =>
    if rows.any (fun r => r.id == o.id) then
      .error (.wrapped "failed to insert order" (.driver .uniqueViolation))
    else
      .ok (rows ++ [{ id := o.id, customerId := o.customerId,
                      status := o.status, totalPrice := o.totalPrice,
                      createdAt := o.createdAt, updatedAt := o.updatedAt }])

/-- The per-item `INSERT` loop inside the transaction, starting at item
index `i` with the transaction-local view `rows` of `order_items`. -/
def insertItemRows (env : TxEnv) (orderId : UUID) :
    List OrderItem → Nat → List ItemRow → Except GoError (List ItemRow)
  | [], _, rows => .ok rows
  | item :: rest, i, rows =>
    match env.faults (i + 1) with
    | some e => .error (.wrapped "failed to insert order item" (.driver e))
    | none =>
      if rows.any (fun r => r.id == env.itemIds i) then
        .error (.wrapped "failed to insert order item" (.driver .uniqueViolation))
      else
        insertItemRows env orderId rest (i + 1)
          (rows ++ [{ id := env.itemIds i, orderId := orderId,
                      productId := item.productId, quantity := item.quantity,
                      unitPrice := item.unitPrice,
                      createdAt := env.itemTimes i,
                      updatedAt := env.itemTimes i }])

/-- Repository `PostgresOrderRepository.CreateOrder`: one transaction inserting the
order row and then every item row; any failure rolls the whole transaction
back (`defer tx.Rollback()`), leaving the committed state unchanged; only a
successful `tx.Commit()` publishes the writes. Returns the database state
after the call together with the returned error, if any. -/
def repoCreateOrder (env : TxEnv) (db : DB) (o : Order) :
    DB × Option GoError :=
  match insertOrderRow db.orders o (env.faults 0) with
  | .error e => (db, some e)
  | .ok orders1 =>
    match insertItemRows env o.id o.items 0 db.orderItems with
    | .error e => (db, some e)
    | .ok items1 =>
      match env.faults (o.items.length + 1) with
      | some e => (db, some (.driver e))
      | none => ({ orders := orders1, orderItems := items1 }, none)

/-- Repository `PostgresOrderRepository.GetOrderByID`: read the order row by primary
key (`ErrOrderNotFound` on no rows), then read every `order_items` row whose
`order_id` references it (in whatever order the store returns them; this
model returns insertion order, one admissible order), and assemble the
aggregate. -/
def repoGetOrderByID (db : DB) (id : UUID) : Except GoError Order :=
  match db.orders.find? (fun r => r.id == id) with
  | none => .error (.sentinel .orderNotFound)
  | some r =>
    .ok { id := r.id
          customerId := r.customerId
          items := (db.orderItems.filter (fun ir => ir.orderId == id)).map
            (fun ir => { productId := ir.productId, quantity := ir.quantity,
                         unitPrice := ir.unitPrice })
          status := r.status
          totalPrice := r.totalPrice
          createdAt := r.createdAt
          updatedAt := r.updatedAt }

/-- A JSON scalar, enough for the marshalled event fields. -/
inductive Jval where
  | jstr (s : String)
  | jnum (q : ℚ)
deriving DecidableEq, Repr

/-- Go struct `service.OrderPlacedEvent`: the wire fact built by the pipeline. Its
fields — there is no timestamp field in the source struct. -/
structure OrderPlacedEvent where
  orderId : UUID
  customerId : UUID
  totalPrice : ℚ
  status : String
deriving DecidableEq, Repr

/-- Go `json.Marshal` of an `OrderPlacedEvent`: a JSON object whose keys are
the struct's json tags. Marshalling this struct never fails in Go; the
pipeline is nevertheless written to handle a marshal error, so the pipeline
below takes the marshaller as a parameter. -/
def jsonMarshalEvent (e : OrderPlacedEvent) :
    Except GoError (List (String × Jval)) :=
  .ok [("order_id", .jstr (uuidStr e.orderId)),
       ("customer_id", .jstr (uuidStr e.customerId)),
       ("total_price", .jnum e.totalPrice),
       ("status", .jstr e.status)]

deriving instance DecidableEq for Except

/-- The observable outcome of one `orderServiceImpl.CreateOrder` call: the
returned `(order, error)` pair, the publish attempts made (key and message
value), and the log lines emitted. -/
structure CreateResult where
  ret : Except GoError Order
  publishes : List (String × List (String × Jval))
  logs : List String
deriving DecidableEq, Repr

/-- The service `orderServiceImpl.CreateOrder`, the dual-write pipeline: factory, then
store, then best-effort publish. `factoryOut` is the `domain.NewOrder`
result, `storeOut` the repository result for the created order, `marshal`
the event marshaller and `publishOut` the broker result of the (single)
`PublishMessage` call. A factory or store failure aborts with a wrapped
error and nothing is published; a marshal or publish failure after a
successful store is only logged and the persisted order is returned. -/
def serviceCreateOrder (factoryOut : Except GoError Order)
    (storeOut : Except GoError Unit)
    (marshal : OrderPlacedEvent → Except GoError (List (String × Jval)))
    (publishOut : Except GoError Unit) : CreateResult :=
  match factoryOut with
  | .error e =>
    { ret := .error (.wrapped "service: failed to create new order domain object" e)
      publishes := []
      logs := [] }
  | .ok order =>
    match storeOut with
    | .error e =>
      { ret := .error (.wrapped "service: failed to persist order" e)
        publishes := []
        logs := [] }
    | .ok _ =>
      let event : OrderPlacedEvent :=
        { orderId := order.id, customerId := order.customerId,
          totalPrice := order.totalPrice, status := order.status }
      match marshal event with
      | .error _ =>
        { ret := .ok order
          publishes := []
          logs := ["Service: Failed to marshal OrderPlacedEvent"] }
      | .ok payload =>
        match publishOut with
        | .error _ =>
          { ret := .ok order
            publishes := [(uuidStr order.id, payload)]
            logs := ["Service: Failed to publish OrderPlaced event"] }
        | .ok _ =>
          { ret := .ok order
            publishes := [(uuidStr order.id, payload)]
            logs := ["Service: Successfully published OrderPlaced event"] }

/-- The outcome of one iteration's fetch in `Consumer.StartConsuming`: the
context was cancelled (the `ctx.Done()` select case, or `FetchMessage`
returning with `ctx.Err() != nil`); a non-cancellation fetch error; or a
fetched message, carrying the `json.Unmarshal` result of its payload
(`none` for a malformed payload). -/
inductive FetchOutcome where
  | cancelled
  | fetchError
  | message (decoded : Option OrderPlacedEvent)
deriving DecidableEq, Repr

/-- The observable events of the consumer loop, in order: log lines, the
fixed backoff sleep (in milliseconds), offset commits, and the exit of the
loop. -/
inductive ConsumerEvent where
  | fetchErrorLogged
  | backoff (ms : Nat)
  | unmarshalErrorLogged
  | handled (e : OrderPlacedEvent)
  | committed
  | exited
deriving DecidableEq, Repr

/-- One iteration of `Consumer.StartConsuming`: the events it emits and
whether the loop continues. A cancellation exits; a fetch error logs and
sleeps `time.Second` (1000 ms) before the next fetch; a malformed message
logs and moves on (the source still commits its offset); a decoded message
is handled (logged) and its offset committed. -/
def consumeStep : FetchOutcome → List ConsumerEvent × Bool
  | .cancelled => ([.exited], false)
  | .fetchError => ([.fetchErrorLogged, .backoff 1000], true)
  | .message none => ([.unmarshalErrorLogged, .committed], true)
  | .message (some e) => ([.handled e, .committed], true)

/-- The loop `Consumer.StartConsuming`, run over a finite prefix of the fetch
outcomes: the trace of events emitted. An exhausted outcome list means the
loop is still running (blocked in its next fetch), not that it exited. -/
def startConsuming : List FetchOutcome → List ConsumerEvent
  | [] => []
  | o :: rest =>
    match consumeStep o with
    | (evs, true) => evs ++ startConsuming rest
    | (evs, false) => evs

/-- The validation loop accumulates exactly the left-fold sum of
`quantity × unitPrice` when every item passes both checks. -/
theorem validateAndSum_ok_of_valid (items : List OrderItem) :
    ∀ acc : ℚ, (∀ it ∈ items, 0 < it.quantity ∧ 0 ≤ it.unitPrice) →
      validateAndSum items acc =
        .ok (acc + (items.map fun it => (it.quantity : ℚ) * it.unitPrice).sum) := by
  induction items with
  | nil => intro acc _; simp [validateAndSum]
  | cons item rest ih =>
    intro acc h
    have hq : ¬ item.quantity ≤ 0 := not_le.mpr (h item (by simp)).1
    have hp : ¬ item.unitPrice < 0 := not_lt.mpr (h item (by simp)).2
    simp only [validateAndSum, if_neg hq, if_neg hp]
    rw [ih _ (fun it hit => h it (List.mem_cons_of_mem _ hit))]
    simp [add_assoc]

/-- The validation loop never produces the `NoItems` sentinel. -/
theorem validateAndSum_ne_noItems (items : List OrderItem) :
    ∀ acc : ℚ, validateAndSum items acc ≠ .error (.sentinel .noOrderItems) := by
  induction items with
  | nil => intro acc; simp [validateAndSum]
  | cons item rest ih =>
    intro acc
    simp only [validateAndSum]
    split
    · simp
    · split
      · simp
      · exact ih _

/-- A prefix of items passing both checks is walked through, accumulating
its sum, before the rest of the list is examined. -/
theorem validateAndSum_append_of_valid (good : List OrderItem) :
    ∀ (l : List OrderItem) (acc : ℚ),
      (∀ it ∈ good, 0 < it.quantity ∧ 0 ≤ it.unitPrice) →
      validateAndSum (good ++ l) acc =
        validateAndSum l (acc + (good.map fun it => (it.quantity : ℚ) * it.unitPrice).sum) := by
  induction good with
  | nil => intro l acc _; simp
  | cons item rest ih =>
    intro l acc h
    have hq : ¬ item.quantity ≤ 0 := not_le.mpr (h item (by simp)).1
    have hp : ¬ item.unitPrice < 0 := not_lt.mpr (h item (by simp)).2
    simp only [List.cons_append, validateAndSum, if_neg hq, if_neg hp, List.append_eq]
    rw [ih _ _ (fun it hit => h it (List.mem_cons_of_mem _ hit))]
    simp [add_assoc]

/-- C9: for every item sequence of length 0, `NewOrder` fails with the
`NoItems` error (`ErrNoOrderItems`) and returns no order. -/
theorem newOrder_empty_items_noItems (gid : UUID) (now : Time) (cid : UUID) :
    NewOrder gid now cid [] = .error (.sentinel .noOrderItems) := rfl

/-- C2 (code bug): `NewOrder` accepts an item with unit price exactly 0 —
the source check is `item.UnitPrice < 0` — and returns a successfully
created order, although the repository's own unit test (`TestNewOrder`,
case "Order item with zero unit price") and the spec require the
`InvalidUnitPrice` failure for a zero unit price. -/
theorem newOrder_accepts_zero_unit_price :
    NewOrder ⟨1⟩ 0 ⟨2⟩ [{ productId := ⟨3⟩, quantity := 1, unitPrice := 0 }] =
      .ok { id := ⟨1⟩, customerId := ⟨2⟩,
            items := [{ productId := ⟨3⟩, quantity := 1, unitPrice := 0 }],
            status := "pending", totalPrice := 0,
            createdAt := 0, updatedAt := 0 } ∧
    NewOrder ⟨1⟩ 0 ⟨2⟩ [{ productId := ⟨3⟩, quantity := 1, unitPrice := 0 }] ≠
      .error (.sentinel .invalidOrderItemUnitPrice) := by
  constructor
  · norm_num [NewOrder, validateAndSum, orderStatusPending]
  · norm_num [NewOrder, validateAndSum]
    exact fun h => Except.noConfusion h

/-- C6: for every non-empty item sequence whose items all have positive
quantity and positive unit price, `NewOrder` succeeds, and the returned
order has status `pending`, `totalPrice` equal to the exact sum of
`quantity × unitPrice` over the items, `createdAt = updatedAt = now`, the
freshly generated identifier `gid` (which is non-nil: `gid` is the output
of `uuid.New()`, assumed non-nil as version-4 generation always sets the
version bits), and exactly the input items. -/
theorem newOrder_success_postcondition (gid : UUID) (now : Time) (cid : UUID)
    (items : List OrderItem)
    (hne : items ≠ [])
    (hval : ∀ it ∈ items, 0 < it.quantity ∧ 0 < it.unitPrice)
    (hgid : gid ≠ uuidNil) :
    NewOrder gid now cid items =
      .ok { id := gid, customerId := cid, items := items,
            status := orderStatusPending,
            totalPrice := (items.map fun it => (it.quantity : ℚ) * it.unitPrice).sum,
            createdAt := now, updatedAt := now } ∧
    gid ≠ uuidNil := by
  refine ⟨?_, hgid⟩
  have h0 : ∀ it ∈ items, 0 < it.quantity ∧ 0 ≤ it.unitPrice :=
    fun it hit => ⟨(hval it hit).1, le_of_lt (hval it hit).2⟩
  unfold NewOrder
  rw [validateAndSum_ok_of_valid items 0 h0]
  simp [List.length_eq_zero, hne]

/-- Witness for the success postcondition at a concrete input. -/
theorem newOrder_success_postcondition_witness :
    NewOrder ⟨1⟩ 0 ⟨2⟩ [{ productId := ⟨3⟩, quantity := 2, unitPrice := 5 }] =
      .ok { id := ⟨1⟩, customerId := ⟨2⟩,
            items := [{ productId := ⟨3⟩, quantity := 2, unitPrice := 5 }],
            status := "pending", totalPrice := 10,
            createdAt := 0, updatedAt := 0 } ∧
    (⟨1⟩ : UUID) ≠ uuidNil := by
  have h := newOrder_success_postcondition ⟨1⟩ 0 ⟨2⟩
    [{ productId := ⟨3⟩, quantity := 2, unitPrice := 5 }]
    (by simp)
    (by intro it hit; rw [List.mem_singleton] at hit; subst hit
        exact ⟨by norm_num, by norm_num⟩)
    (by decide)
  refine ⟨?_, h.2⟩
  have := h.1
  norm_num [orderStatusPending] at this
  exact this

/-- C10: for every non-empty item sequence `NewOrder` never returns the
`NoItems` error (the per-item loop runs before the emptiness check), and
the error returned is determined by the first item in sequence order that
fails a check, the quantity check taking precedence over the unit-price
check for an item failing both (the `if` in the conclusion resolves to
`InvalidQuantity` whenever `bad.quantity ≤ 0`, even when additionally
`bad.unitPrice < 0`). -/
theorem newOrder_error_precedence :
    (∀ (gid : UUID) (now : Time) (cid : UUID) (items : List OrderItem),
        items ≠ [] →
        NewOrder gid now cid items ≠ .error (.sentinel .noOrderItems)) ∧
    (∀ (gid : UUID) (now : Time) (cid : UUID)
        (good : List OrderItem) (bad : OrderItem) (rest : List OrderItem),
        (∀ it ∈ good, 0 < it.quantity ∧ 0 ≤ it.unitPrice) →
        (bad.quantity ≤ 0 ∨ bad.unitPrice < 0) →
        NewOrder gid now cid (good ++ bad :: rest) =
          .error (.sentinel
            (if bad.quantity ≤ 0 then .invalidOrderItemQuantity
             else .invalidOrderItemUnitPrice))) := by
  constructor
  · intro gid now cid items hne hh
    unfold NewOrder at hh
    split at hh
    · rename_i e heq
      have he : e = .sentinel .noOrderItems := by injection hh
      exact validateAndSum_ne_noItems items 0 (he ▸ heq)
    · rename_i total heq
      split at hh
      · rename_i hl
        exact hne (List.length_eq_zero.mp hl)
      · exact Except.noConfusion hh
  · intro gid now cid good bad rest hgood hbad
    unfold NewOrder
    rw [validateAndSum_append_of_valid good (bad :: rest) 0 hgood]
    by_cases hq : bad.quantity ≤ 0
    · simp only [validateAndSum, if_pos hq]
    · have hp : bad.unitPrice < 0 := hbad.resolve_left hq
      simp only [validateAndSum, if_neg hq, if_pos hp]

/-- Witness for the error-precedence theorem: a valid first item followed
by an item failing both checks yields `InvalidQuantity`, not `NoItems` and
not `InvalidUnitPrice`. -/
theorem newOrder_error_precedence_witness :
    NewOrder ⟨1⟩ 0 ⟨2⟩ [{ productId := ⟨3⟩, quantity := 1, unitPrice := 1 }] ≠
      .error (.sentinel .noOrderItems) ∧
    NewOrder ⟨1⟩ 0 ⟨2⟩
        [{ productId := ⟨3⟩, quantity := 1, unitPrice := 1 },
         { productId := ⟨4⟩, quantity := 0, unitPrice := -1 }] =
      .error (.sentinel .invalidOrderItemQuantity) := by
  constructor
  · exact newOrder_error_precedence.1 ⟨1⟩ 0 ⟨2⟩ _ (by simp)
  · have h := newOrder_error_precedence.2 ⟨1⟩ 0 ⟨2⟩
      [{ productId := ⟨3⟩, quantity := 1, unitPrice := 1 }]
      { productId := ⟨4⟩, quantity := 0, unitPrice := -1 } []
      (by intro it hit; rw [List.mem_singleton] at hit; subst hit
          exact ⟨by norm_num, by norm_num⟩)
      (by norm_num)
    simpa using h

/-- The `orders` row written for an order. -/
def orderRowOf (o : Order) : OrderRow :=
  { id := o.id, customerId := o.customerId, status := o.status,
    totalPrice := o.totalPrice, createdAt := o.createdAt,
    updatedAt := o.updatedAt }

/-- The `order_items` rows written for the items of order `oid`, starting at
item index `i`. -/
def buildRows (env : TxEnv) (oid : UUID) : List OrderItem → Nat → List ItemRow
  | [], _ => []
  | item :: rest, i =>
    { id := env.itemIds i, orderId := oid, productId := item.productId,
      quantity := item.quantity, unitPrice := item.unitPrice,
      createdAt := env.itemTimes i, updatedAt := env.itemTimes i } ::
      buildRows env oid rest (i + 1)

/-- A successful order-row insert means: no fault was injected, the
identifier was not already present, and exactly the one row was appended. -/
theorem insertOrderRow_ok_elim (rows : List OrderRow) (o : Order)
    (fault : Option DbErr) (rows' : List OrderRow)
    (h : insertOrderRow rows o fault = .ok rows') :
    fault = none ∧ rows.any (fun r => r.id == o.id) = false ∧
      rows' = rows ++ [orderRowOf o] := by
  cases fault with
  | some e => exact Except.noConfusion h
  | none =>
    simp only [insertOrderRow] at h
    split at h
    · exact Except.noConfusion h
    · rename_i ha
      refine ⟨rfl, Bool.eq_false_iff.mpr ha, ?_⟩
      injection h with h'
      exact h'.symm

/-- A duplicate order identifier makes the order-row insert fail with the
wrapped unique-violation driver error. -/
theorem insertOrderRow_dup (rows : List OrderRow) (o : Order)
    (h : rows.any (fun r => r.id == o.id) = true) :
    insertOrderRow rows o none =
      .error (.wrapped "failed to insert order" (.driver .uniqueViolation)) := by
  simp only [insertOrderRow]
  rw [if_pos h]

/-- A successful item-row loop appends exactly the built rows. -/
theorem insertItemRows_ok_elim (env : TxEnv) (oid : UUID) :
    ∀ (items : List OrderItem) (i : Nat) (rows res : List ItemRow),
      insertItemRows env oid items i rows = .ok res →
      res = rows ++ buildRows env oid items i := by
  intro items
  induction items with
  | nil =>
    intro i rows res h
    injection h with h'
    simp [buildRows, h'.symm]
  | cons item rest ih =>
    intro i rows res h
    unfold insertItemRows at h
    split at h
    · exact Except.noConfusion h
    · split at h
      · exact Except.noConfusion h
      · rw [ih _ _ _ h, buildRows]
        simp [List.append_assoc]

/-- Every row built for order `oid` references `oid`. -/
theorem buildRows_filter_self (env : TxEnv) (oid : UUID) :
    ∀ (items : List OrderItem) (i : Nat),
      (buildRows env oid items i).filter (fun r => r.orderId == oid) =
        buildRows env oid items i := by
  intro items
  induction items with
  | nil => intro i; simp [buildRows]
  | cons item rest ih => intro i; simp [buildRows, ih]

/-- Mapping the built rows back to order items recovers the input items. -/
theorem buildRows_map_back (env : TxEnv) (oid : UUID) :
    ∀ (items : List OrderItem) (i : Nat),
      (buildRows env oid items i).map
          (fun r => ({ productId := r.productId, quantity := r.quantity,
                       unitPrice := r.unitPrice } : OrderItem)) = items := by
  intro items
  induction items with
  | nil => intro i; simp [buildRows]
  | cons item rest ih => intro i; simp [buildRows, ih]

/-- List `find?` skips a prefix on which the predicate is everywhere false. -/
theorem find_skip_front {α : Type} (p : α → Bool) :
    ∀ (l₁ l₂ : List α), (∀ x ∈ l₁, p x = false) →
      (l₁ ++ l₂).find? p = l₂.find? p := by
  intro l₁
  induction l₁ with
  | nil => intro l₂ _; rfl
  | cons a l ih =>
    intro l₂ h
    rw [List.cons_append,
      List.find?_cons_of_neg _ (by simp [h a (List.mem_cons_self a l)]),
      ih l₂ (fun x hx => h x (List.mem_cons_of_mem _ hx))]

/-- A successful repository `CreateOrder` means: no fault on the order
insert, the identifier was fresh, and the committed state is the old state
plus the order row and its built item rows. -/
theorem repoCreateOrder_ok_elim (env : TxEnv) (db : DB) (o : Order) (db' : DB)
    (h : repoCreateOrder env db o = (db', none)) :
    env.faults 0 = none ∧
    db.orders.any (fun r => r.id == o.id) = false ∧
    db'.orders = db.orders ++ [orderRowOf o] ∧
    db'.orderItems = db.orderItems ++ buildRows env o.id o.items 0 := by
  unfold repoCreateOrder at h
  split at h
  · exact absurd (congrArg Prod.snd h) (by simp)
  · rename_i orders1 heq
    split at h
    · exact absurd (congrArg Prod.snd h) (by simp)
    · rename_i items1 heq2
      split at h
      · exact absurd (congrArg Prod.snd h) (by simp)
      · obtain ⟨hf, hany, horders⟩ :=
          insertOrderRow_ok_elim db.orders o (env.faults 0) orders1 heq
        have hitems :=
          insertItemRows_ok_elim env o.id o.items 0 db.orderItems items1 heq2
        have hdb : db' = ⟨orders1, items1⟩ := (congrArg Prod.fst h).symm
        subst hdb
        exact ⟨hf, hany, horders, hitems⟩

/-- A failed repository `CreateOrder` leaves the committed state unchanged
(the transaction rolls back). -/
theorem repoCreateOrder_err_elim (env : TxEnv) (db : DB) (o : Order)
    (db'' : DB) (e : GoError)
    (h : repoCreateOrder env db o = (db'', some e)) : db'' = db := by
  unfold repoCreateOrder at h
  split at h
  · exact (congrArg Prod.fst h).symm
  · split at h
    · exact (congrArg Prod.fst h).symm
    · split at h
      · exact (congrArg Prod.fst h).symm
      · exact absurd (congrArg Prod.snd h) (by simp)

/-- C4: the order row and all item rows are one transaction: whenever the
repository `CreateOrder` returns an error — in particular when the
order-row insert or any item-row insert fails — the committed state is
unchanged (full rollback) and a subsequent `GetOrderByID` for the order
sees neither the order row (it fails with `NotFound`) nor any item row. -/
theorem repo_createOrder_atomic_rollback (env : TxEnv) (db : DB) (o : Order)
    (db'' : DB) (e : GoError)
    (hfresh : db.orders.find? (fun r => r.id == o.id) = none)
    (herr : repoCreateOrder env db o = (db'', some e)) :
    db'' = db ∧
    repoGetOrderByID db'' o.id = .error (.sentinel .orderNotFound) ∧
    db''.orderItems = db.orderItems := by
  have hdb := repoCreateOrder_err_elim env db o db'' e herr
  subst hdb
  refine ⟨rfl, ?_, rfl⟩
  unfold repoGetOrderByID
  rw [hfresh]

/-- Witness: an injected driver fault on the first item-row insert rolls
back the whole transaction and leaves the order invisible to `GetOrderByID`. -/
def envFaultItem : TxEnv :=
  { itemIds := fun i => ⟨100 + i⟩, itemTimes := fun _ => 0,
    faults := fun n => if n = 1 then some .connectionFailure else none }

/-- A concrete order used by the repository witnesses. -/
def orderA : Order :=
  { id := ⟨1⟩, customerId := ⟨2⟩,
    items := [{ productId := ⟨3⟩, quantity := 2, unitPrice := 5 }],
    status := "pending", totalPrice := 10, createdAt := 0, updatedAt := 0 }

theorem repo_createOrder_atomic_rollback_witness :
    (⟨[], []⟩ : DB) = ⟨[], []⟩ ∧
    repoGetOrderByID ⟨[], []⟩ orderA.id = .error (.sentinel .orderNotFound) ∧
    (⟨[], []⟩ : DB).orderItems = (⟨[], []⟩ : DB).orderItems := by
  have h := repo_createOrder_atomic_rollback envFaultItem ⟨[], []⟩ orderA
    ⟨[], []⟩ (.wrapped "failed to insert order item" (.driver .connectionFailure))
    (by rfl) (by rfl)
  exact ⟨rfl, h.2.1, h.2.2⟩

/-- C5: round-trip law — for every order successfully persisted by the
repository `CreateOrder` into a state holding no stray item rows for its
identifier, `GetOrderByID` succeeds and returns the persisted order: every
scalar field is equal and the items are recovered exactly (this model reads
item rows back in insertion order, one admissible order of the unordered
`SELECT`; equality of the lists in particular means the multisets agree,
as the claim's permutation allowance requires). -/
theorem repo_create_getById_roundtrip (env : TxEnv) (db : DB) (o : Order)
    (db' : DB)
    (hnostray : ∀ r ∈ db.orderItems, (r.orderId == o.id) = false)
    (hsucc : repoCreateOrder env db o = (db', none)) :
    repoGetOrderByID db' o.id = .ok o := by
  obtain ⟨hf, hany, ho, hi⟩ := repoCreateOrder_ok_elim env db o db' hsucc
  have hfind : (db.orders ++ [orderRowOf o]).find? (fun r => r.id == o.id) =
      some (orderRowOf o) := by
    rw [find_skip_front _ db.orders [orderRowOf o]
      (fun r hr => Bool.eq_false_iff.mpr (List.any_eq_false.mp hany r hr))]
    rw [List.find?_cons_of_pos _ (by simp [orderRowOf])]
  have hfilter : (db.orderItems ++ buildRows env o.id o.items 0).filter
      (fun ir => ir.orderId == o.id) = buildRows env o.id o.items 0 := by
    rw [List.filter_append,
      List.filter_eq_nil_iff.mpr (fun r hr => by simp [hnostray r hr]),
      List.nil_append, buildRows_filter_self]
  unfold repoGetOrderByID
  simp only [ho, hi, hfind, hfilter, buildRows_map_back]
  rfl

/-- A fault-free transaction environment for the witnesses. -/
def envClean : TxEnv :=
  { itemIds := fun i => ⟨100 + i⟩, itemTimes := fun _ => 0,
    faults := fun _ => none }

theorem repo_create_getById_roundtrip_witness :
    repoGetOrderByID (repoCreateOrder envClean ⟨[], []⟩ orderA).1 orderA.id =
      .ok orderA :=
  repo_create_getById_roundtrip envClean ⟨[], []⟩ orderA
    (repoCreateOrder envClean ⟨[], []⟩ orderA).1
    (by intro r hr; exact absurd hr (List.not_mem_nil r))
    (by rfl)

/-- C3 (amended): creating a second order with an identifier that already
exists fails — with the unique-violation driver error wrapped as the
repository's generic "failed to insert order" failure, not with a distinct
domain-level `Conflict` error kind (`errors.go` declares no such sentinel,
and `errors.Is` matches the returned error against none of the domain
sentinels) — and the first order's persisted data is unaffected (the state
is returned unchanged). -/
theorem repo_duplicate_create_generic_failure (env1 env2 : TxEnv)
    (db db1 : DB) (o1 o2 : Order)
    (hid : o2.id = o1.id)
    (hfirst : repoCreateOrder env1 db o1 = (db1, none))
    (hf : env2.faults 0 = none) :
    repoCreateOrder env2 db1 o2 =
      (db1, some (.wrapped "failed to insert order" (.driver .uniqueViolation))) ∧
    (∀ d : DomainErr,
      errorsIs (.wrapped "failed to insert order" (.driver .uniqueViolation))
        (.sentinel d) = false) := by
  obtain ⟨_, _, ho, _⟩ := repoCreateOrder_ok_elim env1 db o1 db1 hfirst
  have hany : db1.orders.any (fun r => r.id == o2.id) = true := by
    rw [ho, hid]
    simp [orderRowOf]
  constructor
  · simp only [repoCreateOrder, hf, insertOrderRow_dup db1.orders o2 hany]
  · decide

/-- Witness: two fault-free creates racing on the same identifier — the
second returns the generic wrapped unique-violation failure and leaves the
state unchanged. -/
def orderB : Order :=
  { id := ⟨1⟩, customerId := ⟨9⟩,
    items := [{ productId := ⟨4⟩, quantity := 1, unitPrice := 3 }],
    status := "pending", totalPrice := 3, createdAt := 1, updatedAt := 1 }

theorem repo_duplicate_create_generic_failure_witness :
    repoCreateOrder envClean (repoCreateOrder envClean ⟨[], []⟩ orderA).1 orderB =
      ((repoCreateOrder envClean ⟨[], []⟩ orderA).1,
        some (.wrapped "failed to insert order" (.driver .uniqueViolation))) :=
  (repo_duplicate_create_generic_failure envClean envClean ⟨[], []⟩
    (repoCreateOrder envClean ⟨[], []⟩ orderA).1 orderA orderB
    (by rfl) (by rfl) (by rfl)).1

/-- C3 (counterexample to the claim as stated): after a successful create,
a second create with the same identifier does fail and the first order's
data is unaffected, but the failure is not a distinct `Conflict` error
kind: it is the same generic "failed to insert order" wrapper used for any
driver failure of that insert (compare the injected connection failure),
and `errors.Is` matches it against none of the five domain error
sentinels of `errors.go`. -/
def envFaultOrder : TxEnv :=
  { itemIds := fun i => ⟨100 + i⟩, itemTimes := fun _ => 0,
    faults := fun n => if n = 0 then some .connectionFailure else none }

theorem repo_conflict_not_distinct_counterexample :
    (repoCreateOrder envClean ⟨[], []⟩ orderA).2 = none ∧
    (repoCreateOrder envClean (repoCreateOrder envClean ⟨[], []⟩ orderA).1 orderB).2 =
      some (.wrapped "failed to insert order" (.driver .uniqueViolation)) ∧
    (repoCreateOrder envClean (repoCreateOrder envClean ⟨[], []⟩ orderA).1 orderB).1 =
      (repoCreateOrder envClean ⟨[], []⟩ orderA).1 ∧
    (repoCreateOrder envFaultOrder ⟨[], []⟩ orderA).2 =
      some (.wrapped "failed to insert order" (.driver .connectionFailure)) ∧
    errorsIs (.wrapped "failed to insert order" (.driver .uniqueViolation))
        (.sentinel .invalidOrderItemQuantity) = false ∧
    errorsIs (.wrapped "failed to insert order" (.driver .uniqueViolation))
        (.sentinel .invalidOrderItemUnitPrice) = false ∧
    errorsIs (.wrapped "failed to insert order" (.driver .uniqueViolation))
        (.sentinel .noOrderItems) = false ∧
    errorsIs (.wrapped "failed to insert order" (.driver .uniqueViolation))
        (.sentinel .orderNotFound) = false ∧
    errorsIs (.wrapped "failed to insert order" (.driver .uniqueViolation))
        (.sentinel .invalidOrderStatusTransition) = false := by
  refine ⟨rfl, rfl, rfl, rfl, rfl, rfl, rfl, rfl, rfl⟩

/-- C1: the dual-write contract of the service `CreateOrder` — whenever the
factory and the store both succeed, the call returns the persisted order
and no error regardless of the publish outcome (publish success, publish
failure, or event-marshal failure, all quantified here); and whenever
persistence fails, the call returns a wrapped error and no publish is
attempted. -/
theorem service_createOrder_dual_write_contract (order : Order)
    (storeErr : GoError)
    (marshal : OrderPlacedEvent → Except GoError (List (String × Jval)))
    (publishOut : Except GoError Unit) :
    (serviceCreateOrder (.ok order) (.ok ()) marshal publishOut).ret =
      .ok order ∧
    (serviceCreateOrder (.ok order) (.error storeErr) marshal publishOut).ret =
      .error (.wrapped "service: failed to persist order" storeErr) ∧
    (serviceCreateOrder (.ok order) (.error storeErr) marshal publishOut).publishes =
      [] := by
  refine ⟨?_, rfl, rfl⟩
  cases hm : marshal { orderId := order.id, customerId := order.customerId,
                       totalPrice := order.totalPrice, status := order.status } with
  | error e => simp [serviceCreateOrder, hm]
  | ok payload => cases publishOut <;> simp [serviceCreateOrder, hm]

/-- C7 (amended): for every order that the store reports persisted, with
the faithful event marshaller, exactly one publish is attempted; its key is
the order identifier's string form and its JSON value carries the order
identifier, customer identifier, total price and status — and no timestamp
field (the `OrderPlacedEvent` struct has none). -/
theorem orderPlaced_single_publish_no_timestamp (order : Order)
    (publishOut : Except GoError Unit) :
    (serviceCreateOrder (.ok order) (.ok ()) jsonMarshalEvent publishOut).publishes =
      [(uuidStr order.id,
        [("order_id", .jstr (uuidStr order.id)),
         ("customer_id", .jstr (uuidStr order.customerId)),
         ("total_price", .jnum order.totalPrice),
         ("status", .jstr order.status)])] ∧
    (serviceCreateOrder (.ok order) (.ok ()) jsonMarshalEvent publishOut).publishes.map
        (fun p => p.2.lookup "timestamp") = [none] := by
  cases publishOut <;>
    simp [serviceCreateOrder, jsonMarshalEvent, List.lookup]

/-- C7 (counterexample to the claim as stated): for a concrete persisted
order the single published message's JSON value has exactly the four fields
`order_id`, `customer_id`, `total_price`, `status` — there is no timestamp
field to look up. -/
def orderC : Order :=
  { id := ⟨7⟩, customerId := ⟨8⟩,
    items := [{ productId := ⟨9⟩, quantity := 2, unitPrice := 10 }],
    status := "pending", totalPrice := 20, createdAt := 0, updatedAt := 0 }

theorem orderPlacedEvent_missing_timestamp_counterexample :
    (serviceCreateOrder (.ok orderC) (.ok ()) jsonMarshalEvent (.ok ())).publishes.map
        (fun p => p.2.map Prod.fst) =
      [["order_id", "customer_id", "total_price", "status"]] ∧
    (serviceCreateOrder (.ok orderC) (.ok ()) jsonMarshalEvent (.ok ())).publishes.map
        (fun p => p.2.lookup "timestamp") = [none] := by
  exact ⟨rfl, rfl⟩

/-- C8: the consumer loop exits exactly on cancellation — over any finite
sequence of fetch outcomes, the loop emits its exit event if and only if a
cancellation occurs in the sequence; a non-cancellation fetch error is
logged and followed by the fixed one-second (1000 ms) backoff and then the
loop goes on to the next fetch; a deserialization failure is logged (and
its offset committed, as in the source) and the loop advances without
exiting; and an outcome list exhausted without cancellation leaves the loop
running (no exit event). -/
theorem consumer_loop_exit_and_retry_policy :
    (∀ outcomes : List FetchOutcome,
        ConsumerEvent.exited ∈ startConsuming outcomes ↔
          FetchOutcome.cancelled ∈ outcomes) ∧
    (∀ rest : List FetchOutcome,
        startConsuming (.fetchError :: rest) =
          .fetchErrorLogged :: .backoff 1000 :: startConsuming rest) ∧
    (∀ rest : List FetchOutcome,
        startConsuming (.message none :: rest) =
          .unmarshalErrorLogged :: .committed :: startConsuming rest) ∧
    (∀ rest : List FetchOutcome,
        startConsuming (.cancelled :: rest) = [.exited]) := by
  refine ⟨?_, fun rest => rfl, fun rest => rfl, fun rest => rfl⟩
  intro outcomes
  induction outcomes with
  | nil => simp [startConsuming]
  | cons o rest ih =>
    cases o with
    | cancelled => simp [startConsuming, consumeStep]
    | fetchError => simp [startConsuming, consumeStep, ih]
    | message d => cases d <;> simp [startConsuming, consumeStep, ih]
